import Mathlib

set_option maxHeartbeats 1000000

/-!
Shallow embedding of `src/app.py` (MyQuoteMate): string utilities used by
the handler, the upload-extension check `allowed_file`, best-effort PDF
text extraction `try_extract_pdf_text`, and the POST branch of the `index`
request handler.  The external PDF library and the completion service are
modelled as oracles: a `PdfDoc` records whether opening / per-page text
extraction raises, and `Env.completion` is an arbitrary function returning
either the response text or the description of a raised exception.
-/

/-- ASCII approximation of the whitespace set stripped by Python `str.strip()`. -/
def isPySpace (c : Char) : Bool :=
  c = ' ' || c = '\t' || c = '\n' || c = '\r' || c = '\x0b' || c = '\x0c'

/-- Python `str.strip()` on a list of characters. -/
def pyStripL (cs : List Char) : List Char :=
  ((cs.dropWhile isPySpace).reverse.dropWhile isPySpace).reverse

/-- Python `str.strip()`. -/
def pyStrip (s : String) : String := String.mk (pyStripL s.data)

/-- Python `str.lower()` (ASCII case folding, as `Char.toLower`). -/
def lowerL (cs : List Char) : List Char := cs.map Char.toLower

/-- `filename.rsplit(".", 1)[1]`: the part of the name after the last dot
    (meaningful only when a dot is present). -/
def extAfterLastDot (cs : List Char) : List Char :=
  (cs.reverse.takeWhile (fun c => decide (c ≠ '.'))).reverse

/-- `allowed_file` from `src/app.py` with `ALLOWED_EXTENSIONS = ("pdf")`:
    the name contains a dot and the lowercased part after the last dot is
    `pdf`. -/
def allowed_file (filename : String) : Bool :=
  decide ('.' ∈ filename.data) &&
    decide (lowerL (extAfterLastDot filename.data) = "pdf".data)

/-- One call of `page.extract_text()` on a page: it may raise, or return
    `None` (modelled as `none`), or return a string. -/
inductive PageRead where
  | fail : PageRead
  | ok : Option String → PageRead
deriving DecidableEq

/-- A stored file as seen by `pypdf.PdfReader`: opening it may raise
    (malformed, encrypted, not a PDF, ...), else it yields a page list. -/
inductive PdfDoc where
  | readFail : PdfDoc
  | ok : List PageRead → PdfDoc
deriving DecidableEq

/-- Emit a pending run of `pending` newline characters the way Python
    `re.sub` with pattern "newline, repeated three or more times" and
    replacement of two newlines does: a maximal run of three or more
    newlines becomes exactly two, shorter runs are kept as they are. -/
def flushNL (pending : Nat) : List Char :=
  List.replicate (if 3 ≤ pending then 2 else pending) '\n'

/-- Scan the text keeping a count of the newline run in progress. -/
def collapseGo (pending : Nat) : List Char → List Char
  | [] => flushNL pending
  | c :: rest =>
    if c = '\n' then collapseGo (pending + 1) rest
    else flushNL pending ++ c :: collapseGo 0 rest

/-- The `re.sub` line of `try_extract_pdf_text`: collapse every maximal run
    of three or more consecutive newlines to exactly two newlines. -/
def collapseNL (cs : List Char) : List Char := collapseGo 0 cs

/-- The page loop of `try_extract_pdf_text`: keep each page's raw text when
    its stripped text is non-empty; `none` models an exception escaping the
    loop (it is caught by the surrounding handler, which yields ""). -/
def collectParts : List PageRead → Option (List String)
  | [] => some []
  | PageRead.fail :: _ => none
  | PageRead.ok t :: ps =>
    match collectParts ps with
    | none => none
    | some rest =>
      some (if pyStrip (t.getD "") = "" then rest else (t.getD "") :: rest)

/-- `try_extract_pdf_text` from `src/app.py`: join the kept pages with a
    single newline, strip the result, collapse long newline runs; any
    raised exception yields the empty string. -/
def try_extract_pdf_text (doc : PdfDoc) : String :=
  match doc with
  | PdfDoc.readFail => ""
  | PdfDoc.ok pages =>
    match collectParts pages with
    | none => ""
    | some parts =>
      String.mk (collapseNL (pyStripL (String.intercalate "\n" parts).data))

/-- Error text of the disallowed-extension branch. -/
def onlyPdfMsg : String := "Only PDF files are allowed."

/-- Error text of the no-text validation branch. -/
def pleasePasteMsg : String :=
  "Please paste quote text. PDF upload is optional, and scanned PDFs may not be readable."

/-- Error text of the missing-credential branch. -/
def missingKeyMsg : String := "Server is missing OPENAI_API_KEY."

/-- The optional uploaded file part: its user-supplied filename and the
    stored bytes as seen by the PDF library. -/
structure UploadedFile where
  filename : String
  doc : PdfDoc

/-- A POST request to `/`: the three optional form fields and the optional
    file part (a missing field is `none`, as `request.form.get`). -/
structure Req where
  trade : Option String
  location : Option String
  quote_text : Option String
  file : Option UploadedFile

/-- Process-wide environment: the `OPENAI_API_KEY` variable and the
    completion service, which for a given user payload either returns the
    response text or raises an exception with the given description. -/
structure Env where
  apiKey : Option String
  completion : String → Except String String

/-- Everything observable about one handled POST: the four template
    variables passed to `render_template_string` (result, error, and the
    echoed `quote_text` / `location` — the template receives no other
    request-dependent variable), plus effect flags: whether the upload was
    saved, whether PDF extraction ran, whether the OpenAI client was
    constructed, and the payload sent to the completion service (if any). -/
structure HandlerOut where
  result : Option String
  error : Option String
  quote_text : String
  location : String
  savedFile : Bool
  extractedPdf : Bool
  constructedClient : Bool
  payloadSent : Option String
deriving DecidableEq

/-- The f-string `user_payload` of `src/app.py`. -/
def user_payload (trade location quote_text pdf_text : String) : String :=
  "Trade: " ++ (if trade = "" then "Not provided" else trade) ++
  "\nLocation: " ++ (if location = "" then "Not provided" else location) ++
  "\n\nQUOTE TEXT:\n" ++ (if quote_text = "" then "(not provided)" else quote_text) ++
  "\n\nPDF EXTRACTED TEXT:\n" ++
    (if pdf_text = "" then "(no readable text extracted from PDF)" else pdf_text)

/-- The handler from the no-text validation check onwards (the code after
    the upload block): validation gate, credential check, client
    construction, completion call, rendering. `uploaded` records whether a
    file was saved and extracted in the upload block. -/
def afterUpload (env : Env) (trade location quote_text pdf_text : String)
    (uploaded : Bool) : HandlerOut :=
  if quote_text = "" ∧ pdf_text = "" then
    { result := none, error := some pleasePasteMsg,
      quote_text := quote_text, location := location,
      savedFile := uploaded, extractedPdf := uploaded,
      constructedClient := false, payloadSent := none }
  else
    if pyStrip (env.apiKey.getD "") = "" then
      { result := none, error := some missingKeyMsg,
        quote_text := quote_text, location := location,
        savedFile := uploaded, extractedPdf := uploaded,
        constructedClient := false, payloadSent := none }
    else
      match env.completion (user_payload trade location quote_text pdf_text) with
      | Except.ok s =>
        { result := some (pyStrip s), error := none,
          quote_text := quote_text, location := location,
          savedFile := uploaded, extractedPdf := uploaded,
          constructedClient := true,
          payloadSent := some (user_payload trade location quote_text pdf_text) }
      | Except.error e =>
        { result := none, error := some ("AI request failed: " ++ e),
          quote_text := quote_text, location := location,
          savedFile := uploaded, extractedPdf := uploaded,
          constructedClient := true,
          payloadSent := some (user_payload trade location quote_text pdf_text) }

/-- The POST branch of `index` from `src/app.py`: strip the form fields,
    run the upload block (extension check, save, extraction), then
    `afterUpload`. -/
def index_post (env : Env) (req : Req) : HandlerOut :=
  let trade := pyStrip (req.trade.getD "")
  let location := pyStrip (req.location.getD "")
  let quote_text := pyStrip (req.quote_text.getD "")
  match req.file with
  | none => afterUpload env trade location quote_text "" false
  | some f =>
    if f.filename = "" then afterUpload env trade location quote_text "" false
    else
      if allowed_file f.filename then
        afterUpload env trade location quote_text (try_extract_pdf_text f.doc) true
      else
        { result := none, error := some onlyPdfMsg,
          quote_text := quote_text, location := location,
          savedFile := false, extractedPdf := false,
          constructedClient := false, payloadSent := none }

/-- Whether the upload block rejects the request (non-empty filename with a
    disallowed extension). -/
def fileRejected (req : Req) : Bool :=
  match req.file with
  | none => false
  | some f => decide (f.filename ≠ "") && ! allowed_file f.filename

/-- Whether the upload block saves and extracts a file. -/
def uploadedFlag (req : Req) : Bool :=
  match req.file with
  | none => false
  | some f => decide (f.filename ≠ "") && allowed_file f.filename

/-- The `pdf_text` value the handler carries into the validation check. -/
def pdfTextOf (req : Req) : String :=
  match req.file with
  | none => ""
  | some f =>
    if f.filename ≠ "" ∧ allowed_file f.filename = true then try_extract_pdf_text f.doc
    else ""

/-- On any request not rejected by the extension check, the handler is
    `afterUpload` on the stripped fields and the extracted text. -/
theorem index_post_not_rejected (env : Env) (req : Req)
    (h : fileRejected req = false) :
    index_post env req =
      afterUpload env (pyStrip (req.trade.getD "")) (pyStrip (req.location.getD ""))
        (pyStrip (req.quote_text.getD "")) (pdfTextOf req) (uploadedFlag req) := by
  cases hf : req.file with
  | none => simp [index_post, pdfTextOf, uploadedFlag, hf]
  | some f =>
    by_cases hname : f.filename = ""
    · simp [index_post, pdfTextOf, uploadedFlag, hf, hname]
    · by_cases hall : allowed_file f.filename = true
      · simp [index_post, pdfTextOf, uploadedFlag, hf, hname, hall]
      · exfalso
        simp [fileRejected, hf, hname] at h
        exact hall h

/-- ASCII case folding maps no character other than '.' to '.'. -/
theorem eq_dot_of_toLower_eq_dot {c : Char} (h : c.toLower = '.') : c = '.' := by
  simp only [Char.toLower] at h
  split at h
  · exfalso
    rename_i hc
    obtain ⟨h1, h2⟩ := hc
    obtain ⟨k, hk⟩ := Nat.exists_eq_add_of_le h1
    have hk' : k ≤ 25 := by omega
    rw [hk] at h
    interval_cases k <;> exact absurd h (by decide)
  · exact h

/-- Core of the extension check, phrased on the reversed character list. -/
theorem allowedRev_iff (rev : List Char) :
    ('.' ∈ rev ∧ lowerL (rev.takeWhile (fun c => decide (c ≠ '.'))) = ['f', 'd', 'p'])
      ↔ ∃ t, lowerL rev = 'f' :: 'd' :: 'p' :: '.' :: t := by
  constructor
  · rintro ⟨hmem, htake⟩
    have hsplit := List.takeWhile_append_dropWhile
      (p := fun c => decide (c ≠ '.')) (l := rev)
    have hdp : rev.dropWhile (fun c => decide (c ≠ '.')) ≠ [] := by
      intro h0
      rw [h0, List.append_nil] at hsplit
      rw [← hsplit] at hmem
      have := List.mem_takeWhile_imp hmem
      simp at this
    have hhead := List.head_dropWhile_not (fun c => decide (c ≠ '.')) rev hdp
    have hheaddot : (rev.dropWhile (fun c => decide (c ≠ '.'))).head hdp = '.' := by
      simpa using hhead
    have hcons := List.head_cons_tail (rev.dropWhile (fun c => decide (c ≠ '.'))) hdp
    refine ⟨lowerL (rev.dropWhile (fun c => decide (c ≠ '.'))).tail, ?_⟩
    calc lowerL rev
        = lowerL (rev.takeWhile (fun c => decide (c ≠ '.')) ++
            rev.dropWhile (fun c => decide (c ≠ '.'))) := by rw [hsplit]
      _ = 'f' :: 'd' :: 'p' :: lowerL (rev.dropWhile (fun c => decide (c ≠ '.'))) := by
            simp only [lowerL, List.map_append] at htake ⊢
            rw [htake]
            rfl
      _ = 'f' :: 'd' :: 'p' :: '.' ::
            lowerL (rev.dropWhile (fun c => decide (c ≠ '.'))).tail := by
            rw [← hcons, hheaddot]
            simp [lowerL]
  · rintro ⟨t, ht⟩
    match rev with
    | [] => simp [lowerL] at ht
    | [c1] => simp [lowerL] at ht
    | [c1, c2] => simp [lowerL] at ht
    | [c1, c2, c3] => simp [lowerL] at ht
    | c1 :: c2 :: c3 :: c4 :: rest =>
      simp only [lowerL, List.map_cons, List.cons.injEq] at ht
      obtain ⟨h1, h2, h3, h4, h5⟩ := ht
      have hc4 : c4 = '.' := eq_dot_of_toLower_eq_dot h4
      have hc1 : c1 ≠ '.' := by
        intro h0; rw [h0] at h1; exact absurd h1 (by decide)
      have hc2 : c2 ≠ '.' := by
        intro h0; rw [h0] at h2; exact absurd h2 (by decide)
      have hc3 : c3 ≠ '.' := by
        intro h0; rw [h0] at h3; exact absurd h3 (by decide)
      subst hc4
      refine ⟨by simp, ?_⟩
      simp [List.takeWhile_cons, hc1, hc2, hc3, lowerL, h1, h2, h3]

/-- The check `allowed_file` holds exactly when the lowercased filename
    ends in ".pdf". -/
theorem allowed_file_iff (name : String) :
    allowed_file name = true ↔ ∃ s, lowerL name.data = s ++ ".pdf".data := by
  have base := allowedRev_iff name.data.reverse
  constructor
  · intro h
    simp only [allowed_file, Bool.and_eq_true, decide_eq_true_eq] at h
    obtain ⟨hmem, hext⟩ := h
    have hmem' : '.' ∈ name.data.reverse := by simpa using hmem
    have hext' : lowerL (name.data.reverse.takeWhile (fun c => decide (c ≠ '.')))
        = ['f', 'd', 'p'] := by
      simp only [extAfterLastDot, lowerL, List.map_reverse] at hext
      rw [List.reverse_eq_iff] at hext
      simpa [lowerL] using hext
    obtain ⟨t, ht⟩ := base.mp ⟨hmem', hext'⟩
    refine ⟨t.reverse, ?_⟩
    simp only [lowerL, List.map_reverse] at ht ⊢
    rw [List.reverse_eq_iff] at ht
    rw [ht]
    simp
  · rintro ⟨s, hs⟩
    rw [show ".pdf".data = ['.', 'p', 'd', 'f'] from rfl] at hs
    have ht : lowerL name.data.reverse = 'f' :: 'd' :: 'p' :: '.' :: s.reverse := by
      simp only [lowerL, List.map_reverse] at hs ⊢
      rw [hs]
      simp
    obtain ⟨hmem', hext'⟩ := base.mpr ⟨s.reverse, ht⟩
    simp only [allowed_file, Bool.and_eq_true, decide_eq_true_eq]
    constructor
    · simpa using hmem'
    · simp only [extAfterLastDot, lowerL, List.map_reverse]
      rw [List.reverse_eq_iff]
      simpa [lowerL] using hext'

/-- In every branch of `afterUpload`, the echoed template values are the
    stripped field values and the saved/extracted flags are the ones the
    upload block produced. -/
theorem afterUpload_fields (env : Env) (trade location quote_text pdf_text : String)
    (uploaded : Bool) :
    (afterUpload env trade location quote_text pdf_text uploaded).quote_text = quote_text ∧
    (afterUpload env trade location quote_text pdf_text uploaded).location = location ∧
    (afterUpload env trade location quote_text pdf_text uploaded).savedFile = uploaded ∧
    (afterUpload env trade location quote_text pdf_text uploaded).extractedPdf = uploaded := by
  unfold afterUpload
  split
  · exact ⟨rfl, rfl, rfl, rfl⟩
  · split
    · exact ⟨rfl, rfl, rfl, rfl⟩
    · split <;> exact ⟨rfl, rfl, rfl, rfl⟩

/-- On a request with a non-empty filename of disallowed extension, the
    handler renders the "Only PDF files are allowed." page with no side
    effects. -/
theorem index_post_rejected (env : Env) (req : Req) (f : UploadedFile)
    (hf : req.file = some f) (hn : f.filename ≠ "") (ha : allowed_file f.filename = false) :
    index_post env req =
      { result := none, error := some onlyPdfMsg,
        quote_text := pyStrip (req.quote_text.getD ""),
        location := pyStrip (req.location.getD ""),
        savedFile := false, extractedPdf := false,
        constructedClient := false, payloadSent := none } := by
  simp [index_post, hf, hn, ha]

/-- A rejected request has a file part with a non-empty disallowed name. -/
theorem fileRejected_elim (req : Req) (h : fileRejected req = true) :
    ∃ f, req.file = some f ∧ f.filename ≠ "" ∧ allowed_file f.filename = false := by
  unfold fileRejected at h
  cases hf : req.file with
  | none => rw [hf] at h; simp at h
  | some f =>
    rw [hf] at h
    simp only [Bool.and_eq_true, decide_eq_true_eq, Bool.not_eq_true'] at h
    exact ⟨f, rfl, h.1, h.2⟩

/-- Every response of the handler echoes the stripped `quote_text` and
    `location` of the request into the template. -/
theorem index_post_echo (env : Env) (req : Req) :
    (index_post env req).quote_text = pyStrip (req.quote_text.getD "") ∧
    (index_post env req).location = pyStrip (req.location.getD "") := by
  by_cases hrej : fileRejected req = true
  · obtain ⟨f, hf, hn, ha⟩ := fileRejected_elim req hrej
    rw [index_post_rejected env req f hf hn ha]
    exact ⟨rfl, rfl⟩
  · have hrej' : fileRejected req = false := by
      simp only [Bool.not_eq_true] at hrej
      exact hrej
    rw [index_post_not_rejected env req hrej']
    exact ⟨(afterUpload_fields _ _ _ _ _ _).1, (afterUpload_fields _ _ _ _ _ _).2.1⟩

/-- Whenever the handler reports that a payload was sent to the completion
    service, that payload is the assembled user message built from the
    stripped form fields and the extracted PDF text. -/
theorem payloadSent_eq (env : Env) (req : Req) (pl : String)
    (h : (index_post env req).payloadSent = some pl) :
    pl = user_payload (pyStrip (req.trade.getD "")) (pyStrip (req.location.getD ""))
        (pyStrip (req.quote_text.getD "")) (pdfTextOf req) := by
  by_cases hrej : fileRejected req = true
  · exfalso
    obtain ⟨f, hf, hn, ha⟩ := fileRejected_elim req hrej
    rw [index_post_rejected env req f hf hn ha] at h
    simp at h
  · have hrej' : fileRejected req = false := by
      simp only [Bool.not_eq_true] at hrej
      exact hrej
    rw [index_post_not_rejected env req hrej'] at h
    unfold afterUpload at h
    split at h
    · simp at h
    · split at h
      · simp at h
      · split at h
        · simp only [Option.some.injEq] at h
          exact h.symm
        · simp only [Option.some.injEq] at h
          exact h.symm

/-- The `pdf_text` carried into validation is empty when no file was
    accepted by the upload block. -/
theorem pdfTextOf_eq_extract (req : Req) (f : UploadedFile)
    (hf : req.file = some f) (hn : f.filename ≠ "") (ha : allowed_file f.filename = true) :
    pdfTextOf req = try_extract_pdf_text f.doc := by
  unfold pdfTextOf
  rw [hf]
  exact if_pos ⟨hn, ha⟩

/-- `pages.any` of a raised page extraction makes the collection loop
    raise (modelled: return `none`). -/
theorem collectParts_eq_none {pages : List PageRead}
    (h : pages.any (fun p => match p with
      | PageRead.fail => true
      | PageRead.ok _ => false) = true) :
    collectParts pages = none := by
  induction pages with
  | nil => simp at h
  | cons p ps ih =>
    cases p with
    | fail => rfl
    | ok t =>
      simp only [List.any_cons, Bool.or_eq_true] at h
      have h' : ps.any (fun p => match p with
          | PageRead.fail => true
          | PageRead.ok _ => false) = true := by
        rcases h with h | h
        · simp at h
        · exact h
      simp [collectParts, ih h']

/-- Whether the modelled PDF library raises somewhere while reading `doc`. -/
def extractionFails (doc : PdfDoc) : Bool :=
  match doc with
  | PdfDoc.readFail => true
  | PdfDoc.ok pages => pages.any (fun p => match p with
      | PageRead.fail => true
      | PageRead.ok _ => false)

/-- If the PDF library raises anywhere, extraction returns the empty string. -/
theorem try_extract_empty_of_fails (doc : PdfDoc)
    (h : extractionFails doc = true) : try_extract_pdf_text doc = "" := by
  cases doc with
  | readFail => rfl
  | ok pages =>
    simp only [extractionFails] at h
    simp [try_extract_pdf_text, collectParts_eq_none h]

/-- Fixture: a working environment (credential set, service succeeds). -/
def envOk : Env := { apiKey := some "k", completion := fun _ => Except.ok "RESULT" }

/-- Fixture: environment without the credential. -/
def envNoKey : Env := { apiKey := none, completion := fun _ => Except.ok "RESULT" }

/-- Fixture: environment whose completion call raises "boom". -/
def envBoom : Env := { apiKey := some "k", completion := fun _ => Except.error "boom" }

/-- Fixture: POST with no fields at all. -/
def reqEmpty : Req := { trade := none, location := none, quote_text := none, file := none }

/-- Fixture: POST with only pasted text. -/
def reqQuote : Req := { trade := none, location := none, quote_text := some "q", file := none }

/-- Fixture: POST with a ".txt" upload and no pasted text. -/
def reqBadExtNoText : Req :=
  { trade := none, location := none, quote_text := none,
    file := some { filename := "a.txt", doc := PdfDoc.readFail } }

/-- Fixture: POST with pasted text and a ".pdf" upload that cannot be read. -/
def reqPdfFail : Req :=
  { trade := none, location := none, quote_text := some "q",
    file := some { filename := "a.pdf", doc := PdfDoc.readFail } }

/-- C1 (counterexample): a POST in which the trimmed pasted text is empty
    and the extracted PDF text is empty, but whose upload carries a
    non-PDF filename, is answered with the "Only PDF files are allowed."
    page — not the "please paste quote text" validation page — so the
    claim fails as universally stated. -/
theorem c1_counterexample :
    pyStrip (reqBadExtNoText.quote_text.getD "") = "" ∧
    pdfTextOf reqBadExtNoText = "" ∧
    try_extract_pdf_text PdfDoc.readFail = "" ∧
    (index_post envOk reqBadExtNoText).error = some onlyPdfMsg ∧
    onlyPdfMsg ≠ pleasePasteMsg := by decide

/-- C1 (amended): for every POST whose upload — if any — passes the
    filename check, if the trimmed pasted text and the extracted PDF text
    are both empty, the handler renders the "please paste quote text"
    validation error and the completion service is never invoked. -/
theorem c1_empty_text_validation (env : Env) (req : Req)
    (hfile : fileRejected req = false)
    (hq : pyStrip (req.quote_text.getD "") = "")
    (hp : pdfTextOf req = "") :
    (index_post env req).error = some pleasePasteMsg ∧
    (index_post env req).payloadSent = none ∧
    (index_post env req).result = none := by
  rw [index_post_not_rejected env req hfile, hq, hp]
  simp [afterUpload]

/-- C1 witness: the amended statement at the all-empty POST. -/
theorem c1_witness :
    (index_post envOk reqEmpty).error = some pleasePasteMsg ∧
    (index_post envOk reqEmpty).payloadSent = none ∧
    (index_post envOk reqEmpty).result = none :=
  c1_empty_text_validation envOk reqEmpty (by decide) (by decide) (by decide)

/-- C2: a filename is allowed exactly when it ends in ".pdf"
    case-insensitively (equivalently: the part after its last dot lowers
    to "pdf"); and for every uploaded file whose non-empty filename fails
    that check, the handler renders the "Only PDF files are allowed."
    page, never extracts, and never invokes the completion service. -/
theorem c2_non_pdf_upload_rejected :
    (∀ name : String, allowed_file name = true ↔ ∃ s, lowerL name.data = s ++ ".pdf".data) ∧
    ∀ (env : Env) (req : Req) (f : UploadedFile),
      req.file = some f → f.filename ≠ "" → allowed_file f.filename = false →
      (index_post env req).error = some onlyPdfMsg ∧
      (index_post env req).extractedPdf = false ∧
      (index_post env req).payloadSent = none ∧
      (index_post env req).result = none := by
  refine ⟨allowed_file_iff, ?_⟩
  intro env req f hf hn ha
  rw [index_post_rejected env req f hf hn ha]
  exact ⟨rfl, rfl, rfl, rfl⟩

/-- C2 witness: the rejection behaviour at a ".txt" upload. -/
theorem c2_witness :
    (index_post envOk reqBadExtNoText).error = some onlyPdfMsg ∧
    (index_post envOk reqBadExtNoText).extractedPdf = false ∧
    (index_post envOk reqBadExtNoText).payloadSent = none ∧
    (index_post envOk reqBadExtNoText).result = none :=
  c2_non_pdf_upload_rejected.2 envOk reqBadExtNoText
    { filename := "a.txt", doc := PdfDoc.readFail } rfl (by decide) (by decide)

/-- C3: extraction is total at its boundary — whenever the modelled PDF
    library raises (opening the file or extracting any page), the
    function returns the empty string instead of propagating the fault,
    and on such an upload the handler continues into the validation stage
    with empty PDF text. -/
theorem c3_extraction_total :
    (∀ doc : PdfDoc, extractionFails doc = true → try_extract_pdf_text doc = "") ∧
    ∀ (env : Env) (req : Req) (f : UploadedFile),
      req.file = some f → f.filename ≠ "" → allowed_file f.filename = true →
      extractionFails f.doc = true →
      index_post env req =
        afterUpload env (pyStrip (req.trade.getD "")) (pyStrip (req.location.getD ""))
          (pyStrip (req.quote_text.getD "")) "" true := by
  refine ⟨try_extract_empty_of_fails, ?_⟩
  intro env req f hf hn ha hx
  have h0 : fileRejected req = false := by simp [fileRejected, hf, hn, ha]
  have h1 : pdfTextOf req = "" := by
    rw [pdfTextOf_eq_extract req f hf hn ha]
    exact try_extract_empty_of_fails f.doc hx
  have h2 : uploadedFlag req = true := by simp [uploadedFlag, hf, hn, ha]
  rw [index_post_not_rejected env req h0, h1, h2]

/-- C3 witness: an unreadable ".pdf" upload together with pasted text. -/
theorem c3_witness :
    try_extract_pdf_text PdfDoc.readFail = "" ∧
    index_post envOk reqPdfFail =
      afterUpload envOk (pyStrip (reqPdfFail.trade.getD ""))
        (pyStrip (reqPdfFail.location.getD ""))
        (pyStrip (reqPdfFail.quote_text.getD "")) "" true :=
  ⟨c3_extraction_total.1 PdfDoc.readFail (by decide),
   c3_extraction_total.2 envOk reqPdfFail
     { filename := "a.pdf", doc := PdfDoc.readFail } rfl (by decide) (by decide) (by decide)⟩

/-- C4: when the OPENAI_API_KEY credential is absent (unset or
    whitespace-only) and the request otherwise carries valid quote text,
    the handler renders the server-configuration error, the completion
    client is never constructed, and no completion call is made. -/
theorem c4_missing_key (env : Env) (req : Req)
    (hfile : fileRejected req = false)
    (hkey : pyStrip (env.apiKey.getD "") = "")
    (hq : pyStrip (req.quote_text.getD "") ≠ "") :
    (index_post env req).error = some missingKeyMsg ∧
    (index_post env req).constructedClient = false ∧
    (index_post env req).payloadSent = none := by
  rw [index_post_not_rejected env req hfile]
  simp [afterUpload, hq, hkey]

/-- C4 witness: the configuration error at a valid pasted-text POST with
    the credential unset. -/
theorem c4_witness :
    (index_post envNoKey reqQuote).error = some missingKeyMsg ∧
    (index_post envNoKey reqQuote).constructedClient = false ∧
    (index_post envNoKey reqQuote).payloadSent = none :=
  c4_missing_key envNoKey reqQuote (by decide) (by decide) (by decide)

/-- C5: every failure of the completion-service call is caught at the call
    boundary: the handler renders a normal page with no result whose error
    message is "AI request failed: " followed by — hence containing — the
    underlying failure description. -/
theorem c5_upstream_failure (env : Env) (req : Req) (e : String)
    (hfile : fileRejected req = false)
    (htext : ¬ (pyStrip (req.quote_text.getD "") = "" ∧ pdfTextOf req = ""))
    (hkey : ¬ pyStrip (env.apiKey.getD "") = "")
    (hcall : env.completion
        (user_payload (pyStrip (req.trade.getD "")) (pyStrip (req.location.getD ""))
          (pyStrip (req.quote_text.getD "")) (pdfTextOf req)) = Except.error e) :
    (index_post env req).error = some ("AI request failed: " ++ e) ∧
    (index_post env req).result = none ∧
    (∃ pre, (index_post env req).error = some (pre ++ e)) := by
  rw [index_post_not_rejected env req hfile]
  unfold afterUpload
  rw [if_neg htext, if_neg hkey, hcall]
  exact ⟨rfl, rfl, "AI request failed: ", rfl⟩

/-- C5 witness: a raising completion call surfaces "boom" in the page. -/
theorem c5_witness :
    (index_post envBoom reqQuote).error = some ("AI request failed: " ++ "boom") ∧
    (index_post envBoom reqQuote).result = none ∧
    (∃ pre, (index_post envBoom reqQuote).error = some (pre ++ "boom")) :=
  c5_upstream_failure envBoom reqQuote "boom" (by decide) (by decide) (by decide) rfl

/-- Fixture: validation-failing POST whose trade is "Plumbing". -/
def reqTradeP : Req :=
  { trade := some "Plumbing", location := some "Hobart", quote_text := none, file := none }

/-- Fixture: identical POST except the trade is "Electrical". -/
def reqTradeE : Req :=
  { trade := some "Electrical", location := some "Hobart", quote_text := none, file := none }

/-- Fixture: POST whose pasted text has surrounding whitespace. -/
def reqPadded : Req :=
  { trade := none, location := none, quote_text := some " x ", file := none }

/-- C8 (counterexample): two validation-error POSTs that differ only in the
    entered trade produce byte-for-byte identical responses, so the trade
    value cannot be echoed back into the redisplayed form; and a pasted
    text of " x " is redisplayed as its trimmed value "x", not unchanged. -/
theorem c8_counterexample :
    index_post envOk reqTradeP = index_post envOk reqTradeE ∧
    reqTradeP.trade ≠ reqTradeE.trade ∧
    (index_post envOk reqTradeP).error.isSome = true ∧
    (index_post envNoKey reqPadded).error.isSome = true ∧
    (index_post envNoKey reqPadded).quote_text ≠ " x " := by decide

/-- C8 (amended): on every POST that produces an error page, the stripped
    location and pasted-text values are echoed back into the redisplayed
    form; the trade selection is not echoed at all. -/
theorem c8_error_pages_echo (env : Env) (req : Req)
    (h : (index_post env req).error.isSome = true) :
    (index_post env req).quote_text = pyStrip (req.quote_text.getD "") ∧
    (index_post env req).location = pyStrip (req.location.getD "") :=
  index_post_echo env req

/-- C8 witness: the amended statement at a concrete validation error. -/
theorem c8_witness :
    (index_post envOk reqTradeP).quote_text = pyStrip (reqTradeP.quote_text.getD "") ∧
    (index_post envOk reqTradeP).location = pyStrip (reqTradeP.location.getD "") :=
  c8_error_pages_echo envOk reqTradeP (by decide)

/-- C9: whenever a payload is submitted to the completion service, it
    contains — in this order — the trade (or "Not provided" when empty),
    the location (or "Not provided"), the pasted quote text (or the
    "(not provided)" placeholder), and the PDF-extracted text (or the
    "(no readable text extracted from PDF)" placeholder). -/
theorem c9_payload_order (env : Env) (req : Req) (pl : String)
    (h : (index_post env req).payloadSent = some pl) :
    ∃ s₀ s₁ s₂ s₃,
      pl = s₀ ++
        (if pyStrip (req.trade.getD "") = "" then "Not provided"
         else pyStrip (req.trade.getD "")) ++
        s₁ ++
        (if pyStrip (req.location.getD "") = "" then "Not provided"
         else pyStrip (req.location.getD "")) ++
        s₂ ++
        (if pyStrip (req.quote_text.getD "") = "" then "(not provided)"
         else pyStrip (req.quote_text.getD "")) ++
        s₃ ++
        (if pdfTextOf req = "" then "(no readable text extracted from PDF)"
         else pdfTextOf req) := by
  refine ⟨"Trade: ", "\nLocation: ", "\n\nQUOTE TEXT:\n", "\n\nPDF EXTRACTED TEXT:\n", ?_⟩
  rw [payloadSent_eq env req pl h]
  unfold user_payload
  simp [String.append_assoc]

/-- C9 witness: the ordered-containment statement at a concrete call. -/
theorem c9_witness :
    ∃ s₀ s₁ s₂ s₃,
      (user_payload "" "" "q" "" : String) = s₀ ++
        (if pyStrip (reqQuote.trade.getD "") = "" then "Not provided"
         else pyStrip (reqQuote.trade.getD "")) ++
        s₁ ++
        (if pyStrip (reqQuote.location.getD "") = "" then "Not provided"
         else pyStrip (reqQuote.location.getD "")) ++
        s₂ ++
        (if pyStrip (reqQuote.quote_text.getD "") = "" then "(not provided)"
         else pyStrip (reqQuote.quote_text.getD "")) ++
        s₃ ++
        (if pdfTextOf reqQuote = "" then "(no readable text extracted from PDF)"
         else pdfTextOf reqQuote) :=
  c9_payload_order envOk reqQuote (user_payload "" "" "q" "") (by decide)

/-- C10: a file part with an empty filename is handled exactly as if no
    file were uploaded — same rendered page, same effects, and in
    particular nothing is saved and nothing is extracted. -/
theorem c10_empty_filename_ignored (env : Env) (req : Req) (f : UploadedFile)
    (hf : req.file = some f) (hn : f.filename = "") :
    index_post env req = index_post env { req with file := none } ∧
    (index_post env req).savedFile = false ∧
    (index_post env req).extractedPdf = false := by
  have heq : index_post env req = index_post env { req with file := none } := by
    simp [index_post, hf, hn]
  refine ⟨heq, ?_, ?_⟩
  · rw [heq]
    exact (afterUpload_fields _ _ _ _ _ _).2.2.1
  · rw [heq]
    exact (afterUpload_fields _ _ _ _ _ _).2.2.2

/-- C10 witness: an empty-filename part on an otherwise empty POST. -/
theorem c10_witness :
    index_post envOk
        { trade := none, location := none, quote_text := none,
          file := some { filename := "", doc := PdfDoc.readFail } } =
      index_post envOk reqEmpty ∧
    (index_post envOk
        { trade := none, location := none, quote_text := none,
          file := some { filename := "", doc := PdfDoc.readFail } }).savedFile = false ∧
    (index_post envOk
        { trade := none, location := none, quote_text := none,
          file := some { filename := "", doc := PdfDoc.readFail } }).extractedPdf = false :=
  c10_empty_filename_ignored envOk
    { trade := none, location := none, quote_text := none,
      file := some { filename := "", doc := PdfDoc.readFail } }
    { filename := "", doc := PdfDoc.readFail } rfl rfl

theorem collapseGo_nil (p : Nat) : collapseGo p [] = flushNL p := rfl

theorem collapseGo_cons_nl (p : Nat) (rest : List Char) :
    collapseGo p ('\n' :: rest) = collapseGo (p + 1) rest := by
  rw [collapseGo, if_pos rfl]

theorem collapseGo_cons_not (p : Nat) (c : Char) (rest : List Char) (hc : c ≠ '\n') :
    collapseGo p (c :: rest) = flushNL p ++ c :: collapseGo 0 rest := by
  rw [collapseGo, if_neg hc]

/-- Length of the leading newline run. -/
def countNL : List Char → Nat
  | [] => 0
  | c :: rest => if c = '\n' then countNL rest + 1 else 0

/-- Whether the text contains `k` or more consecutive newline characters
    somewhere (k-1 or more consecutive blank lines). -/
def hasBlankRun (k : Nat) : List Char → Bool
  | [] => false
  | c :: rest =>
    (decide (c = '\n') && decide (k ≤ countNL rest + 1)) || hasBlankRun k rest

/-- Whether the (possibly empty) text does not start with a newline. -/
def headNotNL : List Char → Bool
  | [] => true
  | c :: _ => decide (c ≠ '\n')

/-- A text without a `j`-newline run has no longer run either. -/
theorem hasBlankRun_mono {j k : Nat} (hjk : j ≤ k) :
    ∀ cs : List Char, hasBlankRun j cs = false → hasBlankRun k cs = false := by
  intro cs
  induction cs with
  | nil => intro _; rfl
  | cons c rest ih =>
    intro h
    simp only [hasBlankRun, Bool.or_eq_false_iff, Bool.and_eq_false_iff,
      decide_eq_false_iff_not] at h ⊢
    obtain ⟨h1, h2⟩ := h
    refine ⟨?_, ih h2⟩
    rcases h1 with h1 | h1
    · exact Or.inl h1
    · exact Or.inr (fun hk => h1 (le_trans hjk hk))

/-- `countNL` of a text not starting with a newline is zero. -/
theorem countNL_eq_zero {cs : List Char} (h : headNotNL cs = true) : countNL cs = 0 := by
  cases cs with
  | nil => rfl
  | cons c rest =>
    simp only [headNotNL, decide_eq_true_eq] at h
    simp [countNL, h]

/-- Skipping a short newline flush and one non-newline character does not
    create a triple-newline run. -/
theorem hasBlankRun3_flush_cons (m : Nat) (hm : m ≤ 2) (c : Char) (hc : c ≠ '\n')
    (ys : List Char) :
    hasBlankRun 3 (List.replicate m '\n' ++ c :: ys) = hasBlankRun 3 ys := by
  interval_cases m <;>
    simp [hasBlankRun, countNL, hc]

/-- The collapsed text never contains three consecutive newlines. -/
theorem collapseGo_no_triple : ∀ (cs : List Char) (p : Nat),
    hasBlankRun 3 (collapseGo p cs) = false := by
  intro cs
  induction cs with
  | nil =>
    intro p
    show hasBlankRun 3 (flushNL p) = false
    unfold flushNL
    by_cases h3 : 3 ≤ p
    · rw [if_pos h3]; decide
    · rw [if_neg h3]
      have hp : p ≤ 2 := by omega
      interval_cases p <;> decide
  | cons c rest ih =>
    intro p
    by_cases hc : c = '\n'
    · subst hc
      show hasBlankRun 3 (collapseGo (p + 1) rest) = false
      exact ih (p + 1)
    · show hasBlankRun 3 (if c = '\n' then collapseGo (p + 1) rest
        else flushNL p ++ c :: collapseGo 0 rest) = false
      rw [if_neg hc]
      unfold flushNL
      rw [hasBlankRun3_flush_cons _ (by split <;> omega) c hc]
      exact ih 0

/-- Extraction output never contains three consecutive newlines. -/
theorem no_triple_extract (doc : PdfDoc) :
    hasBlankRun 3 (try_extract_pdf_text doc).data = false := by
  cases doc with
  | readFail => rfl
  | ok pages =>
    rcases h : collectParts pages with _ | parts
    · simp only [try_extract_pdf_text, h]
      rfl
    · simp only [try_extract_pdf_text, h]
      exact collapseGo_no_triple _ 0

/-- A leading newline run is absorbed into the pending count. -/
theorem collapseGo_replicate : ∀ (j p : Nat) (r : List Char),
    collapseGo p (List.replicate j '\n' ++ r) = collapseGo (p + j) r := by
  intro j
  induction j with
  | zero => intro p r; simp
  | succ j ih =>
    intro p r
    show collapseGo p ('\n' :: (List.replicate j '\n' ++ r)) = _
    rw [collapseGo, if_pos rfl, ih (p + 1) r]
    congr 1
    omega

/-- With no newline coming next, a pending run is flushed. -/
theorem collapseGo_pending (n : Nat) (r : List Char) (hr : headNotNL r = true) :
    collapseGo n r = flushNL n ++ collapseGo 0 r := by
  cases r with
  | nil => simp [collapseGo, flushNL]
  | cons c r' =>
    simp only [headNotNL, decide_eq_true_eq] at hr
    rw [collapseGo, if_neg hr, collapseGo, if_neg hr]
    simp [flushNL]

/-- Collapsing distributes over an append whose left part ends in a
    non-newline character. -/
theorem collapseGo_append : ∀ (l : List Char), l ≠ [] → l.getLast? ≠ some '\n' →
    ∀ (p : Nat) (r : List Char),
      collapseGo p (l ++ r) = collapseGo p l ++ collapseGo 0 r := by
  intro l
  induction l with
  | nil => intro h; exact absurd rfl h
  | cons c l' ih =>
    intro _ hlast p r
    cases l' with
    | nil =>
      have hc : c ≠ '\n' := by
        intro h0
        rw [h0] at hlast
        exact hlast rfl
      simp only [List.cons_append, List.nil_append]
      rw [collapseGo_cons_not p c r hc, collapseGo_cons_not p c [] hc]
      simp [collapseGo_nil, flushNL]
    | cons d l'' =>
      have hlast' : (d :: l'').getLast? ≠ some '\n' := by
        rwa [List.getLast?_cons_cons] at hlast
      by_cases hc : c = '\n'
      · subst hc
        simp only [List.cons_append]
        rw [collapseGo_cons_nl p (d :: (l'' ++ r)), collapseGo_cons_nl p (d :: l'')]
        exact ih (by simp) hlast' (p + 1) r
      · simp only [List.cons_append]
        rw [collapseGo_cons_not p c (d :: (l'' ++ r)) hc,
          collapseGo_cons_not p c (d :: l'') hc]
        have hih := ih (by simp) hlast' 0 r
        simp only [List.cons_append] at hih
        rw [hih]
        simp [List.append_assoc]

/-- C6: extraction output never contains three or more consecutive blank
    lines (it never even contains three consecutive newlines, hence no
    four-newline run), and in the collapsing step every maximal run of
    three or more newlines — i.e. of two or more consecutive blank lines —
    between non-newline context becomes exactly two newlines, one blank
    line. -/
theorem c6_no_blank_runs :
    (∀ doc : PdfDoc, hasBlankRun 4 (try_extract_pdf_text doc).data = false) ∧
    ∀ (l : List Char), l.getLast? ≠ some '\n' →
      ∀ (n : Nat), 3 ≤ n → ∀ (r : List Char), headNotNL r = true →
        collapseNL (l ++ List.replicate n '\n' ++ r) =
          collapseNL l ++ '\n' :: '\n' :: collapseNL r := by
  constructor
  · intro doc
    exact hasBlankRun_mono (by omega) _ (no_triple_extract doc)
  · intro l hlast n hn r hr
    have hrun : collapseGo 0 (List.replicate n '\n' ++ r) =
        '\n' :: '\n' :: collapseGo 0 r := by
      rw [collapseGo_replicate n 0 r, Nat.zero_add, collapseGo_pending n r hr]
      unfold flushNL
      rw [if_pos hn]
      rfl
    cases hl : l with
    | nil =>
      simp only [List.nil_append]
      show collapseGo 0 (List.replicate n '\n' ++ r) = collapseNL [] ++ _
      rw [hrun]
      rfl
    | cons c l' =>
      rw [← hl]
      unfold collapseNL
      rw [List.append_assoc,
        collapseGo_append l (by rw [hl]; simp) hlast 0 (List.replicate n '\n' ++ r),
        hrun]

/-- C6 witness: the collapse equation around a concrete three-newline run,
    together with the no-blank-run bound at a concrete document. -/
theorem c6_witness :
    hasBlankRun 4
      (try_extract_pdf_text (PdfDoc.ok [PageRead.ok (some "a\n\n\n\nb")])).data = false ∧
    collapseNL (['a'] ++ List.replicate 3 '\n' ++ ['b']) =
      collapseNL ['a'] ++ '\n' :: '\n' :: collapseNL ['b'] :=
  ⟨c6_no_blank_runs.1 (PdfDoc.ok [PageRead.ok (some "a\n\n\n\nb")]),
   c6_no_blank_runs.2 ['a'] (by decide) 3 (by decide) ['b'] (by decide)⟩

/-- The head of a `dropWhile` result fails the predicate. -/
theorem head?_dropWhile {p : Char → Bool} : ∀ {l : List Char} {c : Char},
    (l.dropWhile p).head? = some c → p c = false := by
  intro l
  induction l with
  | nil => intro c h; simp at h
  | cons a l' ih =>
    intro c h
    by_cases hp : p a
    · rw [List.dropWhile_cons_of_pos hp] at h
      exact ih h
    · rw [List.dropWhile_cons_of_neg hp] at h
      simp only [List.head?_cons, Option.some.injEq] at h
      rw [← h]
      exact Bool.not_eq_true _ ▸ (by simpa using hp)

/-- `dropWhile` keeps the last element when its result is non-empty. -/
theorem getLast?_dropWhile {p : Char → Bool} : ∀ {l : List Char},
    l.dropWhile p ≠ [] → (l.dropWhile p).getLast? = l.getLast? := by
  intro l
  induction l with
  | nil => intro h; exact absurd rfl h
  | cons a l' ih =>
    intro h
    by_cases hp : p a
    · rw [List.dropWhile_cons_of_pos hp] at h ⊢
      have hl' : l' ≠ [] := by
        intro h0
        rw [h0] at h
        exact h rfl
      cases l' with
      | nil => exact absurd rfl hl'
      | cons b l'' =>
        rw [List.getLast?_cons_cons]
        exact ih h
    · rw [List.dropWhile_cons_of_neg hp]

/-- `dropWhile` is the identity when the head fails the predicate. -/
theorem dropWhile_eq_self_of_head {p : Char → Bool} {l : List Char}
    (h : ∀ c, l.head? = some c → p c = false) : l.dropWhile p = l := by
  cases l with
  | nil => rfl
  | cons a l' =>
    have := h a rfl
    rw [List.dropWhile_cons_of_neg (by simp [this])]

/-- The first character of a stripped text is not whitespace. -/
theorem stripL_head {x : List Char} {c : Char}
    (h : (pyStripL x).head? = some c) : isPySpace c = false := by
  unfold pyStripL at h
  rw [List.head?_reverse] at h
  have hne : (x.dropWhile isPySpace).reverse.dropWhile isPySpace ≠ [] := by
    intro h0
    rw [h0] at h
    simp at h
  rw [getLast?_dropWhile hne, List.getLast?_reverse] at h
  exact head?_dropWhile h

/-- The last character of a stripped text is not whitespace. -/
theorem stripL_last {x : List Char} {c : Char}
    (h : (pyStripL x).getLast? = some c) : isPySpace c = false := by
  unfold pyStripL at h
  rw [List.getLast?_reverse] at h
  exact head?_dropWhile h

/-- Collapsing preserves a trailing non-newline character. -/
theorem collapseGo_getLast : ∀ (z : List Char) (c : Char), z.getLast? = some c →
    c ≠ '\n' → ∀ p : Nat, (collapseGo p z).getLast? = some c := by
  intro z
  induction z with
  | nil => intro c hc; simp at hc
  | cons d rest ih =>
    intro c hc hcn p
    cases rest with
    | nil =>
      have hd : d = c := by simpa using hc
      subst hd
      rw [collapseGo_cons_not p d [] hcn, collapseGo_nil]
      simp [flushNL]
    | cons e rest' =>
      rw [List.getLast?_cons_cons] at hc
      by_cases hd : d = '\n'
      · subst hd
        rw [collapseGo_cons_nl]
        exact ih c hc hcn (p + 1)
      · rw [collapseGo_cons_not p d (e :: rest') hd, List.getLast?_append]
        have hx := ih c hc hcn 0
        have hdx : (d :: collapseGo 0 (e :: rest')).getLast? = some c := by
          have h1 : ([d] ++ collapseGo 0 (e :: rest')).getLast? = some c := by
            rw [List.getLast?_append, hx]
            rfl
          simpa using h1
        rw [hdx]
        rfl

/-- A text whose first and last characters are not whitespace is its own
    stripped form. -/
theorem pyStripL_eq_self {y : List Char}
    (hh : ∀ c, y.head? = some c → isPySpace c = false)
    (hl : ∀ c, y.getLast? = some c → isPySpace c = false) : pyStripL y = y := by
  unfold pyStripL
  rw [dropWhile_eq_self_of_head hh]
  rw [dropWhile_eq_self_of_head (fun c hc => hl c (by rwa [List.head?_reverse] at hc))]
  exact List.reverse_reverse y

/-- Collapsing a stripped text leaves it stripped. -/
theorem strip_collapse_strip (x : List Char) :
    pyStripL (collapseNL (pyStripL x)) = collapseNL (pyStripL x) := by
  apply pyStripL_eq_self
  · intro c hc
    cases hz : pyStripL x with
    | nil =>
      rw [hz] at hc
      simp [collapseNL, collapseGo_nil, flushNL] at hc
    | cons d rest =>
      have hd : isPySpace d = false := stripL_head (x := x) (by rw [hz]; rfl)
      have hdn : d ≠ '\n' := by
        intro h0
        rw [h0] at hd
        simp [isPySpace] at hd
      rw [hz] at hc
      unfold collapseNL at hc
      rw [collapseGo_cons_not 0 d rest hdn] at hc
      simp only [flushNL, show (if 3 ≤ 0 then 2 else 0) = 0 from rfl,
        List.replicate_zero, List.nil_append, List.head?_cons,
        Option.some.injEq] at hc
      rw [← hc]
      exact hd
  · intro c hc
    cases hz : pyStripL x with
    | nil =>
      rw [hz] at hc
      simp [collapseNL, collapseGo_nil, flushNL] at hc
    | cons d rest =>
      have hsome : ((d :: rest).getLast?).isSome := List.getLast?_isSome.mpr (by simp)
      obtain ⟨c0, hc0⟩ := Option.isSome_iff_exists.mp hsome
      have hns : isPySpace c0 = false := stripL_last (x := x) (by rw [hz]; exact hc0)
      have hnn : c0 ≠ '\n' := by
        intro h0
        rw [h0] at hns
        simp [isPySpace] at hns
      have hpres := collapseGo_getLast (d :: rest) c0 hc0 hnn 0
      rw [hz] at hc
      unfold collapseNL at hc
      rw [hpres] at hc
      injection hc with hcc
      rw [← hcc]
      exact hns

/-- The final extraction result is its own trimmed form. -/
theorem extract_trimmed (doc : PdfDoc) :
    pyStrip (try_extract_pdf_text doc) = try_extract_pdf_text doc := by
  cases doc with
  | readFail => decide
  | ok pages =>
    rcases h : collectParts pages with _ | parts
    · simp only [try_extract_pdf_text, h]
      decide
    · simp only [try_extract_pdf_text, h]
      exact congrArg String.mk (strip_collapse_strip _)

/-- The page texts the loop keeps: each page whose stripped text is
    non-empty contributes its raw text, in document order. -/
def keptPageTexts (pages : List PageRead) : List String :=
  pages.filterMap (fun p => match p with
    | PageRead.fail => none
    | PageRead.ok t => if pyStrip (t.getD "") = "" then none else some (t.getD ""))

/-- On a document without raising pages, the loop collects exactly the
    kept page texts. -/
theorem collectParts_eq_some : ∀ (pages : List PageRead),
    (∀ p ∈ pages, p ≠ PageRead.fail) →
    collectParts pages = some (keptPageTexts pages) := by
  intro pages
  induction pages with
  | nil => intro _; rfl
  | cons p ps ih =>
    intro h
    cases p with
    | fail => exact absurd rfl (h PageRead.fail (by simp))
    | ok t =>
      have hps := ih (fun q hq => h q (by simp [hq]))
      simp only [collectParts, hps]
      by_cases ht : pyStrip (t.getD "") = ""
      · simp [keptPageTexts, List.filterMap_cons, ht]
      · simp [keptPageTexts, List.filterMap_cons, ht]

/-- Fixture: a readable two-page document whose pages read "a" and "b". -/
def docTwoPages : PdfDoc := PdfDoc.ok [PageRead.ok (some "a"), PageRead.ok (some "b")]

/-- The extraction contract in the words of the claim, for comparison with
    the code: non-empty pages joined by a single blank line (two
    newlines), long newline runs collapsed, and the result trimmed. -/
def spec_extract_blankline (doc : PdfDoc) : String :=
  match doc with
  | PdfDoc.readFail => ""
  | PdfDoc.ok pages =>
    match collectParts pages with
    | none => ""
    | some parts =>
      String.mk (collapseNL (pyStripL (String.intercalate "\n\n" parts).data))

/-- C7 (counterexample): on a readable document with the two non-empty
    pages "a" and "b", extraction returns "a", one newline, "b" — the pages
    are separated by a single newline, not by the single blank line the
    claim requires, so the code differs from the claimed contract at this
    document. -/
theorem c7_counterexample :
    try_extract_pdf_text docTwoPages = "a\nb" ∧
    spec_extract_blankline docTwoPages = "a\n\nb" ∧
    try_extract_pdf_text docTwoPages ≠ spec_extract_blankline docTwoPages := by decide

/-- C7 (amended): for every readable PDF, extraction concatenates the
    pages with non-blank text in document order separated by a single
    newline (a line break, not a blank line), strips the result, collapses
    newline runs of three or more to two; and the final result of
    extraction is always its own trimmed form. -/
theorem c7_extraction_shape :
    (∀ (pages : List PageRead), (∀ p ∈ pages, p ≠ PageRead.fail) →
      try_extract_pdf_text (PdfDoc.ok pages) =
        String.mk (collapseNL (pyStripL
          (String.intercalate "\n" (keptPageTexts pages)).data))) ∧
    ∀ doc : PdfDoc, pyStrip (try_extract_pdf_text doc) = try_extract_pdf_text doc := by
  constructor
  · intro pages h
    simp only [try_extract_pdf_text, collectParts_eq_some pages h]
  · exact extract_trimmed

/-- C7 witness: the amended shape at the concrete two-page document. -/
theorem c7_witness :
    try_extract_pdf_text docTwoPages =
      String.mk (collapseNL (pyStripL
        (String.intercalate "\n" (keptPageTexts
          [PageRead.ok (some "a"), PageRead.ok (some "b")])).data)) :=
  c7_extraction_shape.1 [PageRead.ok (some "a"), PageRead.ok (some "b")] (by decide)
